import Mathlib

/-!
Formal model of `src/whatsapp_bulk_sender.py` (WhatsApp Bulk Messenger).

The dispatch loop (`WhatsAppBulkSender.send_bulk_messages`), the
per-recipient send wrapper (`WhatsAppBulkSender.send_message`), the file
reader (`read_phone_numbers`) and the `main` driver are embedded as pure
Lean functions.  Effectful collaborators become oracles:

* the browser interaction performed inside `send_message`
  (lines 160 to 213) is an oracle `Nat → ChannelOutcome` giving, for each
  successive delivery attempt, either the boolean the attempt produces or
  the fact that it raised an exception;
* `random.uniform(delay_min, delay_max)` is an oracle `Nat → ℚ` giving the
  successive drawn delays; its library contract (the value lies in the
  closed interval when min ≤ max) enters theorems as a hypothesis;
* `time.sleep` is observable only through the list of slept durations,
  which the loop state records.
-/

namespace BulkSender

/-- The whitespace characters removed by the Python method `str.strip()`
(the ASCII ones; the recipients here are phone numbers). -/
def isPySpace (c : Char) : Bool :=
  c = ' ' || c = '\t' || c = '\n' || c = '\r' || c = '\x0b' || c = '\x0c'

/-- Model of the Python method `str.strip()`: remove leading and trailing
whitespace characters. -/
def strip (s : String) : String :=
  String.mk (((s.data.dropWhile isPySpace).reverse.dropWhile isPySpace).reverse)

/-- Outcome of one raw delivery attempt by the messaging channel: the
browser interaction either produces a boolean or raises an exception. -/
inductive ChannelOutcome where
  | ok (b : Bool)
  | exn
  deriving DecidableEq

/-- `WhatsAppBulkSender.send_message` (lines 160 to 213): the whole attempt
is wrapped in try/except blocks whose handlers return False, so the wrapper
turns a raw channel outcome into a boolean, mapping an exception to
`false`. -/
def send_message (o : ChannelOutcome) : Bool :=
  match o with
  | .ok b => b
  | .exn => false

/-- State threaded through the dispatch loop of
`WhatsAppBulkSender.send_bulk_messages` (lines 229 to 247):
`success` and `failed` mirror the two lists held in `self.results`
(created at lines 34 to 37); `attempts` records, in order, the stripped
numbers passed to `send_message`, so `attempts.length` is the number of
channel calls made so far; `sleeps` records, in order, the durations
passed to `time.sleep` between messages. -/
structure LoopState where
  success : List String
  failed : List String
  attempts : List String
  sleeps : List ℚ
  deriving DecidableEq

/-- The accumulator as `WhatsAppBulkSender.__init__` creates it
(lines 34 to 37): both result lists empty, no attempts made, no sleeps
performed. -/
def initState : LoopState :=
  ⟨[], [], [], []⟩

/-- One iteration of the loop body of `send_bulk_messages`
(lines 229 to 247), for the entry `pn` at 1-based position `i` of the full
input list: strip the entry; a blank entry is skipped by `continue`;
otherwise `send_message` is called (consuming the next channel outcome),
the stripped number is appended to `success` or to `failed` according to
the boolean, and if `i < total` a delay drawn by `random.uniform` is
slept. -/
def step (chan : Nat → ChannelOutcome) (rand : Nat → ℚ) (total : Nat)
    (st : LoopState) (i : Nat) (pn : String) : LoopState :=
  let p := strip pn
  if p = "" then st
  else
    let ok := send_message (chan st.attempts.length)
    let st1 : LoopState :=
      { success := if ok then st.success ++ [p] else st.success
        failed := if ok then st.failed else st.failed ++ [p]
        attempts := st.attempts ++ [p]
        sleeps := st.sleeps }
    if i < total then
      { st1 with sleeps := st1.sleeps ++ [rand st1.sleeps.length] }
    else st1

/-- The dispatch loop of `send_bulk_messages` (lines 229 to 247): iterate
`step` over the list, with `i` the 1-based position delivered by
`enumerate(phone_numbers, 1)`.  `total = len(phone_numbers)` counts every
entry of the full list, blank entries included. -/
def runFrom (chan : Nat → ChannelOutcome) (rand : Nat → ℚ) (total : Nat) :
    List String → Nat → LoopState → LoopState
  | [], _, st => st
  | pn :: rest, i, st =>
    runFrom chan rand total rest (i + 1) (step chan rand total st i pn)

/-- `WhatsAppBulkSender.send_bulk_messages` (lines 215 to 259) run from the
fresh accumulator: `total` is the length of the argument list and
enumeration starts at 1. -/
def send_bulk_messages (chan : Nat → ChannelOutcome) (rand : Nat → ℚ)
    (phone_numbers : List String) : LoopState :=
  runFrom chan rand phone_numbers.length phone_numbers 1 initState

/-- The stripped non-blank entries of a list, in order: the recipients the
spec calls non-blank, in their trimmed form. -/
def nonBlanks (l : List String) : List String :=
  (l.map strip).filter (fun s => decide (s ≠ ""))

/-- Number of non-blank (after stripping) entries of a list. -/
def nonBlankCount (l : List String) : Nat :=
  (nonBlanks l).length

/-- Number of sleeps the loop performs on a list whose first entry sits at
1-based position `i` of a full list of length `total`: one sleep per
non-blank entry whose position is strictly below `total`. -/
def sleepCount (total : Nat) : List String → Nat → Nat
  | [], _ => 0
  | pn :: rest, i =>
    (if strip pn ≠ "" ∧ i < total then 1 else 0) + sleepCount total rest (i + 1)

/-- `read_phone_numbers` (lines 279 to 282) on the successfully read file:
the Python comprehension keeps each line whose stripped form is truthy and
yields that stripped form.  The input is the list of lines of the file as
Python file iteration yields them (line terminators included; `strip`
removes them). -/
def read_phone_numbers (lines : List String) : List String :=
  (lines.filter (fun line => decide (strip line ≠ ""))).map strip

/-- How the attempt to open and read the numbers file can go: the path does
not exist (the check at line 338, or FileNotFoundError at line 283), the
file exists but reading raises (line 286), or reading succeeds with the
given lines. -/
inductive FileRead where
  | missing
  | unreadable
  | content (lines : List String)

/-- Externally visible actions of `main`, in order: driver setup
(`setup_driver`, line 356), the login wait (`open_whatsapp_web`,
line 358), one `deliver` per channel call made by the loop (carrying the
stripped number), the summary block printed at the end of
`send_bulk_messages` (lines 249 to 259), and `cleanup` (line 360 or the
finally block at line 379). -/
inductive Event where
  | setup
  | login
  | deliver (phone : String)
  | summary
  | cleanup
  deriving DecidableEq

/-- `main` (lines 291 to 383), returning the process exit status and the
ordered list of externally visible events.  The parameters model the
environment: `file` is the numbers file; `setupOk = false` models
`setup_driver` raising, which the generic handler at line 373 catches and
the function then returns normally, so the process exits 0 after the
finally-block cleanup; `loginOk = false` models `open_whatsapp_web`
returning False after its 200 second timeout, upon which main runs
`cleanup` and calls `sys.exit(1)` (the resulting SystemExit also runs the
finally block, so cleanup happens a second time); `intr = some m` models a
KeyboardInterrupt that aborts the dispatch loop once the first `m` entries
of the list have been processed, caught at line 371, with cleanup in the
finally block and a normal return, so exit status 0.  Configuration errors
(lines 338 to 347) exit with status 1 before the sender does any channel
work. -/
def mainRun (file : FileRead) (setupOk loginOk : Bool)
    (chan : Nat → ChannelOutcome) (rand : Nat → ℚ)
    (intr : Option Nat) : Nat × List Event :=
  match file with
  | .missing => (1, [])
  | .unreadable => (1, [])
  | .content lines =>
    let phone_numbers := read_phone_numbers lines
    if phone_numbers = [] then (1, [])
    else if !setupOk then (0, [Event.setup, Event.cleanup])
    else if !loginOk then
      (1, [Event.setup, Event.login, Event.cleanup, Event.cleanup])
    else
      match intr with
      | none =>
        let st := send_bulk_messages chan rand phone_numbers
        (0, [Event.setup, Event.login] ++ st.attempts.map Event.deliver
              ++ [Event.summary, Event.cleanup])
      | some m =>
        let st := runFrom chan rand phone_numbers.length
          (phone_numbers.take m) 1 initState
        (0, [Event.setup, Event.login] ++ st.attempts.map Event.deliver
              ++ [Event.cleanup])

example :
    send_bulk_messages (fun k => ChannelOutcome.ok (decide (k = 0)))
      (fun _ => (0 : ℚ)) ["+15551234567", "", "+15559876543"]
      = ⟨["+15551234567"], ["+15559876543"],
         ["+15551234567", "+15559876543"], [0]⟩ := by
  decide

/-! ### Lemmas about one loop iteration -/

theorem step_blank (chan : Nat → ChannelOutcome) (rand : Nat → ℚ)
    (total : Nat) (st : LoopState) (i : Nat) (pn : String)
    (hp : strip pn = "") :
    step chan rand total st i pn = st := by
  simp [step, hp]

theorem step_nonblank (chan : Nat → ChannelOutcome) (rand : Nat → ℚ)
    (total : Nat) (st : LoopState) (i : Nat) (pn : String)
    (hp : strip pn ≠ "") :
    step chan rand total st i pn =
      { success := if send_message (chan st.attempts.length)
          then st.success ++ [strip pn] else st.success
        failed := if send_message (chan st.attempts.length)
          then st.failed else st.failed ++ [strip pn]
        attempts := st.attempts ++ [strip pn]
        sleeps := if i < total
          then st.sleeps ++ [rand st.sleeps.length] else st.sleeps } := by
  simp only [step, if_neg hp]
  by_cases hi : i < total <;> simp [hi]

theorem step_attempts (chan : Nat → ChannelOutcome) (rand : Nat → ℚ)
    (total : Nat) (st : LoopState) (i : Nat) (pn : String) :
    (step chan rand total st i pn).attempts
      = st.attempts ++ (if strip pn = "" then [] else [strip pn]) := by
  by_cases hp : strip pn = ""
  · simp [step_blank chan rand total st i pn hp, hp]
  · simp [step_nonblank chan rand total st i pn hp, hp]

theorem step_len (chan : Nat → ChannelOutcome) (rand : Nat → ℚ)
    (total : Nat) (st : LoopState) (i : Nat) (pn : String) :
    (step chan rand total st i pn).success.length
        + (step chan rand total st i pn).failed.length
      = st.success.length + st.failed.length
          + (if strip pn = "" then 0 else 1) := by
  by_cases hp : strip pn = ""
  · simp [step_blank chan rand total st i pn hp, hp]
  · simp only [step_nonblank chan rand total st i pn hp, if_neg hp]
    by_cases hb : send_message (chan st.attempts.length) <;>
      simp [hb] <;> omega

theorem step_count (chan : Nat → ChannelOutcome) (rand : Nat → ℚ)
    (total : Nat) (st : LoopState) (i : Nat) (pn : String) (x : String) :
    (step chan rand total st i pn).success.count x
        + (step chan rand total st i pn).failed.count x
      = st.success.count x + st.failed.count x
          + (if strip pn = "" then ([] : List String)
              else [strip pn]).count x := by
  by_cases hp : strip pn = ""
  · simp [step_blank chan rand total st i pn hp, hp]
  · simp only [step_nonblank chan rand total st i pn hp, if_neg hp]
    by_cases hb : send_message (chan st.attempts.length) <;>
      simp [hb, List.count_append] <;> omega

theorem step_success_mono (chan : Nat → ChannelOutcome) (rand : Nat → ℚ)
    (total : Nat) (st : LoopState) (i : Nat) (pn : String) :
    st.success <+: (step chan rand total st i pn).success := by
  by_cases hp : strip pn = ""
  · simp [step_blank chan rand total st i pn hp]
  · simp only [step_nonblank chan rand total st i pn hp]
    by_cases hb : send_message (chan st.attempts.length) <;>
      simp [hb, List.prefix_append]

theorem step_failed_mono (chan : Nat → ChannelOutcome) (rand : Nat → ℚ)
    (total : Nat) (st : LoopState) (i : Nat) (pn : String) :
    st.failed <+: (step chan rand total st i pn).failed := by
  by_cases hp : strip pn = ""
  · simp [step_blank chan rand total st i pn hp]
  · simp only [step_nonblank chan rand total st i pn hp]
    by_cases hb : send_message (chan st.attempts.length) <;>
      simp [hb, List.prefix_append]

theorem step_sub (chan : Nat → ChannelOutcome) (rand : Nat → ℚ)
    (total : Nat) (st : LoopState) (i : Nat) (pn : String)
    (hs : st.success.Sublist st.attempts) (hf : st.failed.Sublist st.attempts) :
    (step chan rand total st i pn).success.Sublist
        (step chan rand total st i pn).attempts
      ∧ (step chan rand total st i pn).failed.Sublist
          (step chan rand total st i pn).attempts := by
  by_cases hp : strip pn = ""
  · simp [step_blank chan rand total st i pn hp, hs, hf]
  · simp only [step_nonblank chan rand total st i pn hp]
    by_cases hb : send_message (chan st.attempts.length) <;>
      simp [hb] <;>
      exact ⟨by first
        | exact hs
        | exact hs.append (List.Sublist.refl _)
        | exact hs.trans (List.sublist_append_left _ _),
        by first
        | exact hf
        | exact hf.append (List.Sublist.refl _)
        | exact hf.trans (List.sublist_append_left _ _)⟩

theorem step_sleeps_len (chan : Nat → ChannelOutcome) (rand : Nat → ℚ)
    (total : Nat) (st : LoopState) (i : Nat) (pn : String) :
    (step chan rand total st i pn).sleeps.length
      = st.sleeps.length
          + (if strip pn ≠ "" ∧ i < total then 1 else 0) := by
  by_cases hp : strip pn = ""
  · simp [step_blank chan rand total st i pn hp, hp]
  · simp only [step_nonblank chan rand total st i pn hp]
    by_cases hi : i < total <;> simp [hi, hp]

theorem step_sleeps_mem (chan : Nat → ChannelOutcome) (rand : Nat → ℚ)
    (total : Nat) (st : LoopState) (i : Nat) (pn : String) (d : ℚ)
    (hd : d ∈ (step chan rand total st i pn).sleeps) :
    d ∈ st.sleeps ∨ ∃ k, d = rand k := by
  by_cases hp : strip pn = ""
  · rw [step_blank chan rand total st i pn hp] at hd
    exact Or.inl hd
  · rw [step_nonblank chan rand total st i pn hp] at hd
    by_cases hi : i < total
    · simp only [if_pos hi, List.mem_append, List.mem_singleton] at hd
      rcases hd with hd | hd
      · exact Or.inl hd
      · exact Or.inr ⟨st.sleeps.length, hd⟩
    · simp only [if_neg hi] at hd
      exact Or.inl hd

theorem step_congr (chan chan2 : Nat → ChannelOutcome) (rand : Nat → ℚ)
    (total : Nat) (st : LoopState) (i : Nat) (pn : String)
    (h : ∀ j, send_message (chan j) = send_message (chan2 j)) :
    step chan rand total st i pn = step chan2 rand total st i pn := by
  by_cases hp : strip pn = ""
  · rw [step_blank chan rand total st i pn hp,
        step_blank chan2 rand total st i pn hp]
  · rw [step_nonblank chan rand total st i pn hp,
        step_nonblank chan2 rand total st i pn hp, h]

/-! ### Lemmas about the whole loop -/

theorem nonBlanks_cons (pn : String) (rest : List String) :
    nonBlanks (pn :: rest)
      = (if strip pn = "" then [] else [strip pn]) ++ nonBlanks rest := by
  by_cases hp : strip pn = "" <;> simp [nonBlanks, hp]

theorem nonBlanks_append (a b : List String) :
    nonBlanks (a ++ b) = nonBlanks a ++ nonBlanks b := by
  simp [nonBlanks]

theorem nonBlankCount_cons (pn : String) (rest : List String) :
    nonBlankCount (pn :: rest)
      = (if strip pn = "" then 0 else 1) + nonBlankCount rest := by
  by_cases hp : strip pn = "" <;> simp [nonBlankCount, nonBlanks_cons, hp] <;>
    omega

theorem runFrom_attempts (chan : Nat → ChannelOutcome) (rand : Nat → ℚ)
    (total : Nat) (l : List String) : ∀ (i : Nat) (st : LoopState),
    (runFrom chan rand total l i st).attempts = st.attempts ++ nonBlanks l := by
  induction l with
  | nil => intro i st; simp [runFrom, nonBlanks]
  | cons pn rest ih =>
    intro i st
    simp only [runFrom]
    rw [ih, step_attempts, nonBlanks_cons, List.append_assoc]

theorem runFrom_len (chan : Nat → ChannelOutcome) (rand : Nat → ℚ)
    (total : Nat) (l : List String) : ∀ (i : Nat) (st : LoopState),
    (runFrom chan rand total l i st).success.length
        + (runFrom chan rand total l i st).failed.length
      = st.success.length + st.failed.length + nonBlankCount l := by
  induction l with
  | nil => intro i st; simp [runFrom, nonBlankCount, nonBlanks]
  | cons pn rest ih =>
    intro i st
    simp only [runFrom]
    rw [ih, step_len, nonBlankCount_cons]
    by_cases hp : strip pn = "" <;> simp [hp] <;> omega

theorem runFrom_count (chan : Nat → ChannelOutcome) (rand : Nat → ℚ)
    (total : Nat) (l : List String) (x : String) :
    ∀ (i : Nat) (st : LoopState),
    (runFrom chan rand total l i st).success.count x
        + (runFrom chan rand total l i st).failed.count x
      = st.success.count x + st.failed.count x + (nonBlanks l).count x := by
  induction l with
  | nil => intro i st; simp [runFrom, nonBlanks]
  | cons pn rest ih =>
    intro i st
    simp only [runFrom]
    rw [ih, step_count, nonBlanks_cons, List.count_append]
    omega

theorem runFrom_success_mono (chan : Nat → ChannelOutcome) (rand : Nat → ℚ)
    (total : Nat) (l : List String) : ∀ (i : Nat) (st : LoopState),
    st.success <+: (runFrom chan rand total l i st).success := by
  induction l with
  | nil => intro i st; simp [runFrom]
  | cons pn rest ih =>
    intro i st
    simp only [runFrom]
    exact (step_success_mono chan rand total st i pn).trans
      (ih (i + 1) (step chan rand total st i pn))

theorem runFrom_failed_mono (chan : Nat → ChannelOutcome) (rand : Nat → ℚ)
    (total : Nat) (l : List String) : ∀ (i : Nat) (st : LoopState),
    st.failed <+: (runFrom chan rand total l i st).failed := by
  induction l with
  | nil => intro i st; simp [runFrom]
  | cons pn rest ih =>
    intro i st
    simp only [runFrom]
    exact (step_failed_mono chan rand total st i pn).trans
      (ih (i + 1) (step chan rand total st i pn))

theorem runFrom_sub (chan : Nat → ChannelOutcome) (rand : Nat → ℚ)
    (total : Nat) (l : List String) : ∀ (i : Nat) (st : LoopState),
    st.success.Sublist st.attempts → st.failed.Sublist st.attempts →
    (runFrom chan rand total l i st).success.Sublist
        (runFrom chan rand total l i st).attempts
      ∧ (runFrom chan rand total l i st).failed.Sublist
          (runFrom chan rand total l i st).attempts := by
  induction l with
  | nil => intro i st hs hf; simp only [runFrom]; exact ⟨hs, hf⟩
  | cons pn rest ih =>
    intro i st hs hf
    simp only [runFrom]
    obtain ⟨h1, h2⟩ := step_sub chan rand total st i pn hs hf
    exact ih (i + 1) (step chan rand total st i pn) h1 h2

theorem runFrom_sleeps_len (chan : Nat → ChannelOutcome) (rand : Nat → ℚ)
    (total : Nat) (l : List String) : ∀ (i : Nat) (st : LoopState),
    (runFrom chan rand total l i st).sleeps.length
      = st.sleeps.length + sleepCount total l i := by
  induction l with
  | nil => intro i st; simp [runFrom, sleepCount]
  | cons pn rest ih =>
    intro i st
    simp only [runFrom, sleepCount]
    rw [ih, step_sleeps_len]
    omega

theorem runFrom_sleeps_mem (chan : Nat → ChannelOutcome) (rand : Nat → ℚ)
    (total : Nat) (l : List String) : ∀ (i : Nat) (st : LoopState) (d : ℚ),
    d ∈ (runFrom chan rand total l i st).sleeps →
    d ∈ st.sleeps ∨ ∃ k, d = rand k := by
  induction l with
  | nil => intro i st d hd; simp only [runFrom] at hd; exact Or.inl hd
  | cons pn rest ih =>
    intro i st d hd
    simp only [runFrom] at hd
    rcases ih (i + 1) (step chan rand total st i pn) d hd with h | h
    · exact step_sleeps_mem chan rand total st i pn d h
    · exact Or.inr h

theorem runFrom_congr (chan chan2 : Nat → ChannelOutcome) (rand : Nat → ℚ)
    (total : Nat) (l : List String)
    (h : ∀ j, send_message (chan j) = send_message (chan2 j)) :
    ∀ (i : Nat) (st : LoopState),
    runFrom chan rand total l i st = runFrom chan2 rand total l i st := by
  induction l with
  | nil => intro i st; simp [runFrom]
  | cons pn rest ih =>
    intro i st
    simp only [runFrom]
    rw [step_congr chan chan2 rand total st i pn h, ih]

theorem runFrom_append (chan : Nat → ChannelOutcome) (rand : Nat → ℚ)
    (total : Nat) (a : List String) : ∀ (b : List String) (i : Nat)
    (st : LoopState),
    runFrom chan rand total (a ++ b) i st
      = runFrom chan rand total b (i + a.length) (runFrom chan rand total a i st) := by
  induction a with
  | nil => intro b i st; simp [runFrom]
  | cons pn rest ih =>
    intro b i st
    simp only [List.cons_append, runFrom, List.append_eq]
    rw [ih]
    have h : i + 1 + rest.length = i + (pn :: rest).length := by
      simp only [List.length_cons]
      omega
    rw [h]

theorem sleepCount_eq_take (total : Nat) (l : List String) :
    ∀ i : Nat, sleepCount total l i = nonBlankCount (l.take (total - i)) := by
  induction l with
  | nil => intro i; simp [sleepCount, nonBlankCount, nonBlanks]
  | cons pn rest ih =>
    intro i
    by_cases hi : i < total
    · obtain ⟨n, hn⟩ : ∃ n, total - i = n + 1 := ⟨total - i - 1, by omega⟩
      have hn2 : total - (i + 1) = n := by omega
      rw [sleepCount, ih (i + 1), hn, hn2, List.take_succ_cons,
        nonBlankCount_cons]
      by_cases hp : strip pn = "" <;> simp [hp, hi]
    · have h0 : total - i = 0 := by omega
      have h1 : total - (i + 1) = 0 := by omega
      rw [sleepCount, ih (i + 1), h0, h1]
      simp [hi, nonBlankCount, nonBlanks]

/-! ### Connecting lemmas -/

theorem read_eq_nonBlanks (lines : List String) :
    read_phone_numbers lines = nonBlanks lines := by
  rw [read_phone_numbers, nonBlanks, List.filter_map]
  rfl

theorem nonBlanks_mem (l : List String) (x : String) (hx : x ∈ nonBlanks l) :
    (∃ e ∈ l, x = strip e) ∧ x ≠ "" := by
  simp only [nonBlanks, List.mem_filter, List.mem_map, decide_eq_true_eq] at hx
  obtain ⟨⟨e, he, hes⟩, hne⟩ := hx
  exact ⟨⟨e, he, hes.symm⟩, hne⟩

theorem read_nil_iff (lines : List String) :
    read_phone_numbers lines = [] ↔ nonBlankCount lines = 0 := by
  rw [read_eq_nonBlanks, nonBlankCount]
  exact ⟨fun h => by simp [h], fun h => List.length_eq_zero.mp h⟩

theorem nonBlankCount_append (a b : List String) :
    nonBlankCount (a ++ b) = nonBlankCount a + nonBlankCount b := by
  simp [nonBlankCount, nonBlanks_append]

theorem nonBlankCount_dropLast_getLast (l : List String) (x : String)
    (hx : l.getLast? = some x) (hnb : strip x ≠ "") :
    nonBlankCount l.dropLast + 1 = nonBlankCount l := by
  obtain ⟨ys, rfl⟩ := List.getLast?_eq_some_iff.mp hx
  rw [List.dropLast_concat, nonBlankCount_append]
  simp [nonBlankCount, nonBlanks, hnb]

theorem sleeps_len_closed (chan : Nat → ChannelOutcome) (rand : Nat → ℚ)
    (l : List String) :
    (send_bulk_messages chan rand l).sleeps.length
      = nonBlankCount l.dropLast := by
  rw [send_bulk_messages, runFrom_sleeps_len, sleepCount_eq_take,
    ← List.dropLast_eq_take]
  simp [initState]

/-! ### Claim theorems -/

/-- C9: the DispatchResult accumulator starts empty and the loop only
appends: for every starting state, the success and failed lists of the
state are prefixes of the corresponding lists after running the loop over
any remaining input from any position, so the lists at any earlier point
of the run are prefixes of the lists at any later point; and the full run
starts from the empty accumulator. -/
theorem accumulator_monotone (chan : Nat → ChannelOutcome) (rand : Nat → ℚ)
    (total : Nat) (l : List String) (i : Nat) (st : LoopState) :
    st.success <+: (runFrom chan rand total l i st).success
    ∧ st.failed <+: (runFrom chan rand total l i st).failed
    ∧ initState.success = ([] : List String)
    ∧ initState.failed = ([] : List String)
    ∧ send_bulk_messages chan rand l = runFrom chan rand l.length l 1 initState :=
  ⟨runFrom_success_mono chan rand total l i st,
   runFrom_failed_mono chan rand total l i st, rfl, rfl, rfl⟩

/-- C5: the loop attempts exactly the stripped non-blank entries, once per
occurrence and in input order (blank entries are never passed to the
channel, and no entry is attempted twice), and the success and failed
lists are subsequences of the attempt sequence, hence each preserves
attempt order among its members. -/
theorem attempt_order (chan : Nat → ChannelOutcome) (rand : Nat → ℚ)
    (l : List String) :
    (send_bulk_messages chan rand l).attempts = nonBlanks l
    ∧ (send_bulk_messages chan rand l).success.Sublist
        (send_bulk_messages chan rand l).attempts
    ∧ (send_bulk_messages chan rand l).failed.Sublist
        (send_bulk_messages chan rand l).attempts := by
  refine ⟨?_, ?_⟩
  · rw [send_bulk_messages, runFrom_attempts]
    simp [initState]
  · exact runFrom_sub chan rand l.length l 1 initState
      (List.nil_sublist _) (List.nil_sublist _)

/-- C3: an exception raised by the channel during one delivery attempt is
absorbed: the run on a channel whose attempt `k` raises is identical to
the run on the channel whose attempt `k` returns false (so that recipient,
and only that recipient, lands in the failed list for attempt `k`), and
every non-blank recipient is still attempted. -/
theorem exception_isolated (chan : Nat → ChannelOutcome) (rand : Nat → ℚ)
    (l : List String) (k : Nat) :
    send_bulk_messages (fun j => if j = k then ChannelOutcome.exn else chan j)
        rand l
      = send_bulk_messages
          (fun j => if j = k then ChannelOutcome.ok false else chan j) rand l
    ∧ (send_bulk_messages (fun j => if j = k then ChannelOutcome.exn else chan j)
        rand l).attempts = nonBlanks l := by
  constructor
  · unfold send_bulk_messages
    apply runFrom_congr
    intro j
    by_cases hj : j = k <;> simp [hj, send_message]
  · rw [send_bulk_messages, runFrom_attempts]
    simp [initState]

/-- C10: every value the loop passes to the channel, and every value it
records in the success or failed list, is the stripped form of some input
entry (and attempted values are moreover non-blank), even when the caller
supplies entries with surrounding whitespace. -/
theorem stripped_values_only (chan : Nat → ChannelOutcome) (rand : Nat → ℚ)
    (l : List String) :
    (∀ x ∈ (send_bulk_messages chan rand l).attempts,
      (∃ e ∈ l, x = strip e) ∧ x ≠ "")
    ∧ (∀ x ∈ (send_bulk_messages chan rand l).success, ∃ e ∈ l, x = strip e)
    ∧ (∀ x ∈ (send_bulk_messages chan rand l).failed, ∃ e ∈ l, x = strip e) := by
  have hat : (send_bulk_messages chan rand l).attempts = nonBlanks l := by
    rw [send_bulk_messages, runFrom_attempts]
    simp [initState]
  have hsub := runFrom_sub chan rand l.length l 1 initState
    (List.nil_sublist _) (List.nil_sublist _)
  refine ⟨?_, ?_, ?_⟩
  · intro x hx
    rw [hat] at hx
    exact nonBlanks_mem l x hx
  · intro x hx
    have hx2 : x ∈ (send_bulk_messages chan rand l).attempts :=
      hsub.1.subset hx
    rw [hat] at hx2
    exact (nonBlanks_mem l x hx2).1
  · intro x hx
    have hx2 : x ∈ (send_bulk_messages chan rand l).attempts :=
      hsub.2.subset hx
    rw [hat] at hx2
    exact (nonBlanks_mem l x hx2).1

/-- C1 counterexample: the claim asserts the success and failed collections
are disjoint as sets on every run, but when the duplicated recipient `a`
succeeds on its first attempt and fails on its second, `a` appears in both
lists, so they are not disjoint as sets. -/
theorem dispatch_sets_not_disjoint :
    "a" ∈ (send_bulk_messages (fun k => ChannelOutcome.ok (decide (k = 0)))
        (fun _ => (0 : ℚ)) ["a", "a"]).success
    ∧ "a" ∈ (send_bulk_messages (fun k => ChannelOutcome.ok (decide (k = 0)))
        (fun _ => (0 : ℚ)) ["a", "a"]).failed := by
  decide

/-- C1 (amended): on every run, |success| + |failed| equals the number of
non-blank recipients, and success ++ failed is a permutation of the
stripped non-blank input sequence, so their union as a multiset (hence as
a set) equals the non-blank input and every non-blank occurrence is
covered exactly once; the two lists are disjoint as sets whenever no
stripped non-blank recipient occurs twice in the input (duplicates that
receive different outcomes may appear in both). -/
theorem dispatch_partition (chan : Nat → ChannelOutcome) (rand : Nat → ℚ)
    (l : List String) :
    (send_bulk_messages chan rand l).success.length
        + (send_bulk_messages chan rand l).failed.length = nonBlankCount l
    ∧ ((send_bulk_messages chan rand l).success
        ++ (send_bulk_messages chan rand l).failed).Perm (nonBlanks l)
    ∧ ((nonBlanks l).Nodup →
        ∀ x ∈ (send_bulk_messages chan rand l).success,
          x ∉ (send_bulk_messages chan rand l).failed) := by
  have hc : ∀ x, (send_bulk_messages chan rand l).success.count x
      + (send_bulk_messages chan rand l).failed.count x
      = (nonBlanks l).count x := by
    intro x
    have h := runFrom_count chan rand l.length l x 1 initState
    simpa [send_bulk_messages, initState] using h
  refine ⟨?_, ?_, ?_⟩
  · have h := runFrom_len chan rand l.length l 1 initState
    simpa [send_bulk_messages, initState, nonBlankCount] using h
  · rw [List.perm_iff_count]
    intro x
    rw [List.count_append]
    exact hc x
  · intro hnd x hxs hxf
    have h1 : 0 < (send_bulk_messages chan rand l).success.count x :=
      List.count_pos_iff.mpr hxs
    have h2 : 0 < (send_bulk_messages chan rand l).failed.count x :=
      List.count_pos_iff.mpr hxf
    have h3 : (nonBlanks l).count x ≤ 1 :=
      List.nodup_iff_count_le_one.mp hnd x
    have h4 := hc x
    omega

/-- C1 witness: the amended theorem evaluated on the worked example of the
spec (one blank entry, first attempt true, second false). -/
theorem dispatch_partition_witness :
    (send_bulk_messages (fun k => ChannelOutcome.ok (decide (k = 0)))
        (fun _ => (0 : ℚ)) ["+15551234567", "", "+15559876543"]).success.length
        + (send_bulk_messages (fun k => ChannelOutcome.ok (decide (k = 0)))
            (fun _ => (0 : ℚ))
            ["+15551234567", "", "+15559876543"]).failed.length
      = nonBlankCount ["+15551234567", "", "+15559876543"]
    ∧ ((send_bulk_messages (fun k => ChannelOutcome.ok (decide (k = 0)))
        (fun _ => (0 : ℚ)) ["+15551234567", "", "+15559876543"]).success
        ++ (send_bulk_messages (fun k => ChannelOutcome.ok (decide (k = 0)))
            (fun _ => (0 : ℚ))
            ["+15551234567", "", "+15559876543"]).failed).Perm
        (nonBlanks ["+15551234567", "", "+15559876543"])
    ∧ ((nonBlanks ["+15551234567", "", "+15559876543"]).Nodup →
        ∀ x ∈ (send_bulk_messages (fun k => ChannelOutcome.ok (decide (k = 0)))
            (fun _ => (0 : ℚ))
            ["+15551234567", "", "+15559876543"]).success,
          x ∉ (send_bulk_messages (fun k => ChannelOutcome.ok (decide (k = 0)))
            (fun _ => (0 : ℚ))
            ["+15551234567", "", "+15559876543"]).failed) :=
  dispatch_partition (fun k => ChannelOutcome.ok (decide (k = 0)))
    (fun _ => (0 : ℚ)) ["+15551234567", "", "+15559876543"]

/-- C2 counterexample: with input `["a", " "]` there is one non-blank
recipient, so the claim demands zero inter-message sleeps and no sleep
after the last non-blank attempt; but the guard compares the position in
the full list (trailing blank entry included) with the total list length,
so one sleep is performed, right after the only non-blank attempt. -/
theorem trailing_blank_extra_sleep :
    (send_bulk_messages (fun _ => ChannelOutcome.ok true) (fun _ => (0 : ℚ))
        ["a", " "]).sleeps.length = 1
    ∧ nonBlankCount ["a", " "] = 1
    ∧ (send_bulk_messages (fun _ => ChannelOutcome.ok true) (fun _ => (0 : ℚ))
        ["a", " "]).sleeps.length ≠ nonBlankCount ["a", " "] - 1 := by
  decide

/-- C2 (amended): the number of sleeps equals the number of non-blank
entries among all but the last entry of the full input list; hence it is
n - 1 for n non-blank recipients whenever the final list entry is
non-blank (in particular whenever no blank entries are present, as when
the list comes from read_phone_numbers), while a trailing blank entry
leaves a sleep after the last non-blank attempt; and, assuming the
contract of random.uniform, every slept duration lies within
[delay_min, delay_max]. -/
theorem sleep_schedule (chan : Nat → ChannelOutcome) (rand : Nat → ℚ)
    (dmin dmax : ℚ) (l : List String)
    (hrand : ∀ k, dmin ≤ rand k ∧ rand k ≤ dmax) :
    (send_bulk_messages chan rand l).sleeps.length = nonBlankCount l.dropLast
    ∧ (∀ x, l.getLast? = some x → strip x ≠ "" →
        (send_bulk_messages chan rand l).sleeps.length = nonBlankCount l - 1)
    ∧ ∀ d ∈ (send_bulk_messages chan rand l).sleeps, dmin ≤ d ∧ d ≤ dmax := by
  refine ⟨sleeps_len_closed chan rand l, ?_, ?_⟩
  · intro x hx hnb
    rw [sleeps_len_closed chan rand l]
    have h := nonBlankCount_dropLast_getLast l x hx hnb
    omega
  · intro d hd
    rw [send_bulk_messages] at hd
    rcases runFrom_sleeps_mem chan rand l.length l 1 initState d hd with h | ⟨k, hk⟩
    · simp [initState] at h
    · rw [hk]
      exact hrand k

/-- C2 witness: the amended theorem on two non-blank recipients with the
delay oracle constantly 3 and range [2, 5]. -/
theorem sleep_schedule_witness :
    (∀ k : Nat, (2 : ℚ) ≤ (fun _ : Nat => (3 : ℚ)) k
      ∧ (fun _ : Nat => (3 : ℚ)) k ≤ 5)
    ∧ ((send_bulk_messages (fun _ => ChannelOutcome.ok true)
          (fun _ : Nat => (3 : ℚ)) ["a", "b"]).sleeps.length
        = nonBlankCount (["a", "b"] : List String).dropLast
      ∧ (∀ x, (["a", "b"] : List String).getLast? = some x → strip x ≠ "" →
          (send_bulk_messages (fun _ => ChannelOutcome.ok true)
            (fun _ : Nat => (3 : ℚ)) ["a", "b"]).sleeps.length
            = nonBlankCount ["a", "b"] - 1)
      ∧ ∀ d ∈ (send_bulk_messages (fun _ => ChannelOutcome.ok true)
          (fun _ : Nat => (3 : ℚ)) ["a", "b"]).sleeps, (2 : ℚ) ≤ d ∧ d ≤ 5) :=
  ⟨fun _ => by norm_num,
   sleep_schedule (fun _ => ChannelOutcome.ok true) (fun _ : Nat => (3 : ℚ))
     2 5 ["a", "b"] (fun _ => by norm_num)⟩

/-- C4: read_phone_numbers returns exactly the lines that are non-blank
after stripping, in file order, each returned entry in stripped form; its
length is the number of non-blank stripped lines; a blank line anywhere
contributes zero entries; and every returned entry is the stripped form of
some input line and is non-empty. -/
theorem read_phone_numbers_spec (lines : List String) :
    read_phone_numbers lines = nonBlanks lines
    ∧ (read_phone_numbers lines).length = nonBlankCount lines
    ∧ (∀ pre post b, strip b = "" →
        read_phone_numbers (pre ++ b :: post) = read_phone_numbers (pre ++ post))
    ∧ ∀ x ∈ read_phone_numbers lines, (∃ e ∈ lines, x = strip e) ∧ x ≠ "" := by
  refine ⟨read_eq_nonBlanks lines, ?_, ?_, ?_⟩
  · rw [read_eq_nonBlanks, nonBlankCount]
  · intro pre post b hb
    simp [read_phone_numbers, List.filter_append, hb]
  · intro x hx
    rw [read_eq_nonBlanks] at hx
    exact nonBlanks_mem lines x hx

/-- C4 witness: the spec theorem on a file with surrounding whitespace and
a blank line, plus the blank-insertion part at a concrete blank line. -/
theorem read_phone_numbers_spec_witness :
    (strip " " = ""
      ∧ read_phone_numbers (["x"] ++ " " :: ["y"])
          = read_phone_numbers (["x"] ++ ["y"]))
    ∧ read_phone_numbers [" a ", "", "b"] = nonBlanks [" a ", "", "b"]
    ∧ (read_phone_numbers [" a ", "", "b"]).length
        = nonBlankCount [" a ", "", "b"] :=
  ⟨⟨by decide,
    (read_phone_numbers_spec [" a ", "", "b"]).2.2.1 ["x"] ["y"] " " (by decide)⟩,
   (read_phone_numbers_spec [" a ", "", "b"]).1,
   (read_phone_numbers_spec [" a ", "", "b"]).2.1⟩

/-- C6: a missing numbers file, an unreadable numbers file, or a file with
zero non-blank entries after stripping makes the process exit with status
1 and no externally visible channel work at all: no driver setup, no login
wait, no deliver call, whatever the rest of the environment would do. -/
theorem config_error_exits_early (setupOk loginOk : Bool)
    (chan : Nat → ChannelOutcome) (rand : Nat → ℚ) (intr : Option Nat) :
    mainRun FileRead.missing setupOk loginOk chan rand intr = (1, [])
    ∧ mainRun FileRead.unreadable setupOk loginOk chan rand intr = (1, [])
    ∧ ∀ lines : List String, nonBlankCount lines = 0 →
        mainRun (FileRead.content lines) setupOk loginOk chan rand intr
          = (1, []) := by
  refine ⟨rfl, rfl, ?_⟩
  intro lines h
  have hnil : read_phone_numbers lines = [] := (read_nil_iff lines).mpr h
  simp [mainRun, hnil]

/-- C6 witness: a file holding only blank lines exits with status 1 and an
empty event list. -/
theorem config_error_exits_early_witness :
    nonBlankCount ["", "  "] = 0
    ∧ mainRun (FileRead.content ["", "  "]) true true
        (fun _ => ChannelOutcome.ok true) (fun _ => (0 : ℚ)) none = (1, []) :=
  ⟨by decide,
   (config_error_exits_early true true (fun _ => ChannelOutcome.ok true)
      (fun _ => (0 : ℚ)) none).2.2 ["", "  "] (by decide)⟩

/-- C7 counterexample: when driver setup raises (one of the two channel
initialization failures the claim covers), main catches the exception with
its generic handler and returns normally, so the process exits with status
0, not the nonzero status the claim requires. -/
theorem setup_failure_exit_zero :
    (mainRun (FileRead.content ["a"]) false true
        (fun _ => ChannelOutcome.ok true) (fun _ => (0 : ℚ)) none).fst = 0 := by
  decide

/-- C7 (amended): if the login handshake does not complete within its
timeout the process exits nonzero, releases resources and never makes a
deliver call; if driver setup raises, no deliver call is made and
resources are released, but the process exits with status 0 because the
generic exception handler swallows the failure; and a completed run exits
0 regardless of outcomes. -/
theorem init_failure_behavior (chan : Nat → ChannelOutcome) (rand : Nat → ℚ)
    (lines : List String) (intr : Option Nat)
    (h : nonBlankCount lines ≠ 0) :
    mainRun (FileRead.content lines) true false chan rand intr
        = (1, [Event.setup, Event.login, Event.cleanup, Event.cleanup])
    ∧ mainRun (FileRead.content lines) false true chan rand intr
        = (0, [Event.setup, Event.cleanup])
    ∧ (∀ p, Event.deliver p ∉
        (mainRun (FileRead.content lines) true false chan rand intr).snd)
    ∧ (∀ p, Event.deliver p ∉
        (mainRun (FileRead.content lines) false true chan rand intr).snd)
    ∧ (mainRun (FileRead.content lines) true true chan rand none).fst = 0 := by
  have hnil : ¬ read_phone_numbers lines = [] :=
    fun hh => h ((read_nil_iff lines).mp hh)
  refine ⟨?_, ?_, ?_, ?_, ?_⟩ <;> simp [mainRun, hnil]

/-- C7 witness: the amended theorem on a one-recipient file, login-timeout
branch. -/
theorem init_failure_behavior_witness :
    nonBlankCount ["a"] ≠ 0
    ∧ mainRun (FileRead.content ["a"]) true false
        (fun _ => ChannelOutcome.ok true) (fun _ => (0 : ℚ)) none
      = (1, [Event.setup, Event.login, Event.cleanup, Event.cleanup]) :=
  ⟨by decide,
   (init_failure_behavior (fun _ => ChannelOutcome.ok true)
      (fun _ => (0 : ℚ)) ["a"] none (by decide)).1⟩

/-- C8 counterexample: an interrupt arriving after the first recipient
stops the loop before the summary block of send_bulk_messages is reached,
and main prints no summary on the way out, contradicting the part of the
claim that says whatever summary is available is still printed. -/
theorem interrupt_no_summary :
    Event.summary ∉ (mainRun (FileRead.content ["a", "b"]) true true
        (fun _ => ChannelOutcome.ok true) (fun _ => (0 : ℚ)) (some 1)).snd := by
  decide

/-- C8 (amended): on an interrupt after m entries, no further deliver call
happens (the deliver events are exactly those for the non-blank entries
among the first m), the accumulated success and failed lists are preserved
unchanged (they are the state reached after m entries, a prefix of what
the completed run would hold), cleanup is performed and is the final
action before exit, and the process exits 0 - but no summary is
printed. -/
theorem interrupt_behavior (chan : Nat → ChannelOutcome) (rand : Nat → ℚ)
    (lines : List String) (m : Nat)
    (h : nonBlankCount lines ≠ 0) :
    (mainRun (FileRead.content lines) true true chan rand (some m)).fst = 0
    ∧ (mainRun (FileRead.content lines) true true chan rand (some m)).snd
        = [Event.setup, Event.login]
          ++ (nonBlanks ((read_phone_numbers lines).take m)).map Event.deliver
          ++ [Event.cleanup]
    ∧ (runFrom chan rand (read_phone_numbers lines).length
          ((read_phone_numbers lines).take m) 1 initState).success
        <+: (send_bulk_messages chan rand (read_phone_numbers lines)).success
    ∧ (runFrom chan rand (read_phone_numbers lines).length
          ((read_phone_numbers lines).take m) 1 initState).failed
        <+: (send_bulk_messages chan rand (read_phone_numbers lines)).failed
    ∧ Event.summary ∉
        (mainRun (FileRead.content lines) true true chan rand (some m)).snd
    ∧ ((mainRun (FileRead.content lines) true true chan rand (some m)).snd).getLast?
        = some Event.cleanup := by
  have hnil : ¬ read_phone_numbers lines = [] :=
    fun hh => h ((read_nil_iff lines).mp hh)
  have hsplit : send_bulk_messages chan rand (read_phone_numbers lines)
      = runFrom chan rand (read_phone_numbers lines).length
          ((read_phone_numbers lines).drop m)
          (1 + ((read_phone_numbers lines).take m).length)
          (runFrom chan rand (read_phone_numbers lines).length
            ((read_phone_numbers lines).take m) 1 initState) := by
    have happ := runFrom_append chan rand (read_phone_numbers lines).length
      ((read_phone_numbers lines).take m) ((read_phone_numbers lines).drop m)
      1 initState
    rw [List.take_append_drop] at happ
    rw [send_bulk_messages]
    exact happ
  have hat : (runFrom chan rand (read_phone_numbers lines).length
      ((read_phone_numbers lines).take m) 1 initState).attempts
      = nonBlanks ((read_phone_numbers lines).take m) := by
    rw [runFrom_attempts]
    simp [initState]
  refine ⟨?_, ?_, ?_, ?_, ?_, ?_⟩
  · simp [mainRun, hnil]
  · simp [mainRun, hnil, hat]
  · rw [hsplit]
    exact runFrom_success_mono chan rand (read_phone_numbers lines).length
      ((read_phone_numbers lines).drop m)
      (1 + ((read_phone_numbers lines).take m).length) _
  · rw [hsplit]
    exact runFrom_failed_mono chan rand (read_phone_numbers lines).length
      ((read_phone_numbers lines).drop m)
      (1 + ((read_phone_numbers lines).take m).length) _
  · simp [mainRun, hnil]
  · simp [mainRun, hnil, ← List.append_assoc, List.getLast?_concat]
    rw [← List.cons_append]
    exact List.getLast?_concat _

/-- C8 witness: the amended theorem on a two-recipient file with an
interrupt after the first entry. -/
theorem interrupt_behavior_witness :
    nonBlankCount ["a", "b"] ≠ 0
    ∧ (mainRun (FileRead.content ["a", "b"]) true true
        (fun _ => ChannelOutcome.ok true) (fun _ => (0 : ℚ)) (some 1)).fst = 0
    ∧ (mainRun (FileRead.content ["a", "b"]) true true
        (fun _ => ChannelOutcome.ok true) (fun _ => (0 : ℚ)) (some 1)).snd
        = [Event.setup, Event.login]
          ++ (nonBlanks ((read_phone_numbers ["a", "b"]).take 1)).map
              Event.deliver
          ++ [Event.cleanup] :=
  ⟨by decide,
   (interrupt_behavior (fun _ => ChannelOutcome.ok true) (fun _ => (0 : ℚ))
      ["a", "b"] 1 (by decide)).1,
   (interrupt_behavior (fun _ => ChannelOutcome.ok true) (fun _ => (0 : ℚ))
      ["a", "b"] 1 (by decide)).2.1⟩

end BulkSender
